import Mathlib

/-!
Verification of the adaptive learning engine (mastery tracker, difficulty
bandit, adaptive coordinator) of the AlgoFest2025 quiz platform.  The numeric
state and update rules are embedded over `ℚ`; JavaScript's
`Math.round(x*10000)/10000` is modelled exactly as round-half-up at 4 decimal
places.
-/

namespace AlgoFest

/-- JavaScript `Math.round(x * 10000) / 10000`: round half towards +∞,
at 4 decimal places. -/
def jsRound4 (x : ℚ) : ℚ := (⌊x * 10000 + 1/2⌋ : ℚ) / 10000

/-- The four numeric fields of a per-(user, topic) mastery record
(`MasteryState` in `mastery.service.ts`). -/
structure MasteryState where
  mastery_score : ℚ
  learning_rate : ℚ
  forgetting_rate : ℚ
  confidence_interval : ℚ
  deriving DecidableEq

/-- `MasteryService.applyBKTUpdate`: the Bayesian-Knowledge-Tracing style
update of the four numeric fields.  `elapsedMs` is the value of
`getTimeSinceLastAttempt` (milliseconds since the previous attempt, 0 when
`last_attempt_at` is null). -/
def applyBKTUpdate (s : MasteryState) (isCorrect : Bool)
    (difficulty timeTaken elapsedMs : ℚ) : MasteryState :=
  let difficultyAdjustment : ℚ := 1 + (difficulty - 1/2) * (3/10)
  let timeAdjustment : ℚ := max (1/2) (min (3/2) (30 / timeTaken))
  let adjustedLearningRate : ℚ := s.learning_rate * difficultyAdjustment * timeAdjustment
  let m1 : ℚ :=
    if isCorrect then
      min (99/100) (s.mastery_score + adjustedLearningRate * (1 - s.mastery_score))
    else
      max (1/100) (s.mastery_score - s.forgetting_rate * s.mastery_score * 2)
  let ci1 : ℚ :=
    if isCorrect then max (1/20) (s.confidence_interval * (19/20))
    else min (1/2) (s.confidence_interval * (11/10))
  let lr1 : ℚ :=
    if isCorrect then max (1/20) (s.learning_rate * (49/50))
    else min (3/10) (s.learning_rate * (51/50))
  let timeBasedForgetting : ℚ := s.forgetting_rate * (elapsedMs / 86400000)
  let m2 : ℚ := max (1/100) (m1 - timeBasedForgetting)
  { mastery_score := jsRound4 m2
    learning_rate := jsRound4 lr1
    forgetting_rate := s.forgetting_rate
    confidence_interval := jsRound4 ci1 }

/-- A full `user_topic_mastery` row: numeric state plus counters and the two
nullable timestamps.  Timestamps are modelled as rationals (milliseconds). -/
structure MasteryRow where
  state : MasteryState
  attempts_count : ℕ
  correct_answers : ℕ
  time_spent_seconds : ℚ
  last_attempt_at : Option ℚ
  mastery_achieved_at : Option ℚ
  deriving DecidableEq

/-- `MasteryService.getTimeSinceLastAttempt`: 0 when no previous attempt is
recorded, otherwise `now - lastAttemptAt`. -/
def getTimeSinceLastAttempt (now : ℚ) (last : Option ℚ) : ℚ :=
  match last with
  | none => 0
  | some t => now - t

/-- `MasteryService.updateMastery` (the persisted effect of one call): apply
the BKT update to the numeric fields, bump the counters, stamp
`last_attempt_at`, and set `mastery_achieved_at` iff the post-update score is
`≥ 0.8` and it was previously unset. -/
def updateMastery (row : MasteryRow) (isCorrect : Bool)
    (difficulty timeTaken now : ℚ) : MasteryRow :=
  let u := applyBKTUpdate row.state isCorrect difficulty timeTaken
      (getTimeSinceLastAttempt now row.last_attempt_at)
  { state := u
    attempts_count := row.attempts_count + 1
    correct_answers := row.correct_answers + (if isCorrect then 1 else 0)
    time_spent_seconds := row.time_spent_seconds + timeTaken
    last_attempt_at := some now
    mastery_achieved_at :=
      if u.mastery_score ≥ 4/5 ∧ row.mastery_achieved_at = none
      then some now else row.mastery_achieved_at }

/-- `MasteryService.initializeMastery`: the default row created on first
interaction. -/
def initialMasteryRow : MasteryRow :=
  { state :=
      { mastery_score := 1/10
        learning_rate := 3/20
        forgetting_rate := 1/20
        confidence_interval := 3/10 }
    attempts_count := 0
    correct_answers := 0
    time_spent_seconds := 0
    last_attempt_at := none
    mastery_achieved_at := none }

/-- `MasteryService.getMasteryLevel`, exactly as the source's threshold
cascade (checking `≥ 0.8` downwards). -/
def getMasteryLevel (score : ℚ) : String :=
  if score ≥ 4/5 then "Expert"
  else if score ≥ 3/5 then "Proficient"
  else if score ≥ 2/5 then "Developing"
  else if score ≥ 1/5 then "Beginning"
  else "Novice"

/-- `MasteryService.predictNextQuestionSuccess`. -/
def predictNextQuestionSuccess (s : MasteryState) : ℚ :=
  min (19/20) (s.mastery_score + (1 - s.confidence_interval) * (1/10))

/-- `MasteryService.recommendOptimalDifficulty`. -/
def recommendOptimalDifficulty (s : MasteryState) : ℚ :=
  max (1/10) (min (9/10) (s.mastery_score + 1/10 - s.confidence_interval * (1/5)))

/-- The `accuracy` field computed by `MasteryService.getMasteryInsights`:
guarded division by `attempts_count`. -/
def insightsAccuracy (row : MasteryRow) : ℚ :=
  if 0 < row.attempts_count then (row.correct_answers : ℚ) / (row.attempts_count : ℚ)
  else 0

/-- The `avg_time_per_question` field computed by
`MasteryService.getMasteryInsights`: guarded division by `attempts_count`. -/
def insightsAvgTime (row : MasteryRow) : ℚ :=
  if 0 < row.attempts_count then row.time_spent_seconds / (row.attempts_count : ℚ)
  else 0

/-- The accuracy value used inside `identifyStrengths` and
`identifyImprovementAreas`: `correct_answers / max(1, attempts_count)`. -/
def guardedAccuracy (row : MasteryRow) : ℚ :=
  (row.correct_answers : ℚ) / ((max 1 row.attempts_count : ℕ) : ℚ)

/-- `MasteryService.identifyStrengths`. -/
def identifyStrengths (row : MasteryRow) : List String :=
  (if row.state.mastery_score ≥ 7/10 then ["Strong understanding of core concepts"] else [])
    ++ (if guardedAccuracy row ≥ 4/5 then ["High accuracy in responses"] else [])
    ++ (if row.state.learning_rate ≤ 1/10 then ["Consistent performance"] else [])

/-- `MasteryService.identifyImprovementAreas`. -/
def identifyImprovementAreas (row : MasteryRow) : List String :=
  (if row.state.mastery_score < 1/2 then ["Needs more practice with fundamental concepts"] else [])
    ++ (if guardedAccuracy row < 3/5 then ["Focus on accuracy improvement"] else [])
    ++ (if row.state.confidence_interval > 3/10 then ["More practice needed to build confidence"] else [])

/-- One Thompson-sampling arm's Beta posterior parameters
(`ArmParameters` in `bandit.service.ts`). -/
structure ArmParameters where
  alpha : ℚ
  beta : ℚ
  deriving DecidableEq

/-- The three difficulty arms. -/
inductive Arm where
  | easy
  | medium
  | hard
  deriving DecidableEq

/-- The `arm_parameters` record of a bandit model: parameters for the three
arms. -/
structure ArmParams where
  easy : ArmParameters
  medium : ArmParameters
  hard : ArmParameters
  deriving DecidableEq

/-- Look up one arm's parameters. -/
def ArmParams.get (p : ArmParams) : Arm → ArmParameters
  | Arm.easy => p.easy
  | Arm.medium => p.medium
  | Arm.hard => p.hard

/-- The user context snapshot fed to the bandit (`BanditContext`). -/
structure BanditContext where
  topic_mastery : ℚ
  recent_accuracy : ℚ
  avg_time_per_question : ℚ
  total_attempts : ℚ
  time_of_day : ℚ
  engagement_level : ℚ
  streak_days : ℚ
  deriving DecidableEq

/-- The per-arm contextual adjustments computed by the bandit. -/
structure Adjustments where
  easy : ℚ
  medium : ℚ
  hard : ℚ
  deriving DecidableEq

/-- Look up one arm's adjustment. -/
def Adjustments.get (a : Adjustments) : Arm → ℚ
  | Arm.easy => a.easy
  | Arm.medium => a.medium
  | Arm.hard => a.hard

/-- Topic-mastery rule of `calculateContextualAdjustments`. -/
def adjMasteryRule (c : BanditContext) (a : Adjustments) : Adjustments :=
  if c.topic_mastery < 3/10 then ⟨a.easy + 1, a.medium - 1/2, a.hard - 1⟩
  else if c.topic_mastery > 7/10 then ⟨a.easy - 1, a.medium + 1/2, a.hard + 1⟩
  else a

/-- Recent-accuracy rule of `calculateContextualAdjustments`. -/
def adjAccuracyRule (c : BanditContext) (a : Adjustments) : Adjustments :=
  if c.recent_accuracy < 1/2 then ⟨a.easy + 4/5, a.medium - 3/10, a.hard - 4/5⟩
  else if c.recent_accuracy > 4/5 then ⟨a.easy - 1/2, a.medium + 3/10, a.hard + 7/10⟩
  else a

/-- Time-pressure rule of `calculateContextualAdjustments`. -/
def adjTimeRule (c : BanditContext) (a : Adjustments) : Adjustments :=
  if c.avg_time_per_question > 45 then ⟨a.easy + 1/2, a.medium, a.hard - 1/2⟩
  else a

/-- Engagement rule of `calculateContextualAdjustments`. -/
def adjEngagementRule (c : BanditContext) (a : Adjustments) : Adjustments :=
  if c.engagement_level < 2/5 then ⟨a.easy + 7/10, a.medium - 1/5, a.hard - 7/10⟩
  else a

/-- Time-of-day rule of `calculateContextualAdjustments`. -/
def adjTimeOfDayRule (c : BanditContext) (a : Adjustments) : Adjustments :=
  if c.time_of_day ≥ 15 then ⟨a.easy + 3/10, a.medium, a.hard - 3/10⟩
  else a

/-- `BanditService.calculateContextualAdjustments`: the five additive
heuristic rules applied in source order to the zero adjustment vector. -/
def calculateContextualAdjustments (c : BanditContext) : Adjustments :=
  adjTimeOfDayRule c (adjEngagementRule c (adjTimeRule c
    (adjAccuracyRule c (adjMasteryRule c ⟨0, 0, 0⟩))))

/-- The first argument `recommendQuestion` passes to `sampleBeta` for an arm:
`alpha[arm] + contextualAdjustment[arm]`. -/
def recommendAlphaArg (p : ArmParams) (c : BanditContext) (arm : Arm) : ℚ :=
  (p.get arm).alpha + (calculateContextualAdjustments c).get arm

/-- The second argument `recommendQuestion` passes to `sampleBeta` for an
arm: `beta[arm]` (no adjustment). -/
def recommendBetaArg (p : ArmParams) (_c : BanditContext) (arm : Arm) : ℚ :=
  (p.get arm).beta

/-- `BanditService.getDifficultyArm`: map a difficulty back to an arm. -/
def getDifficultyArm (difficulty : ℚ) : Arm :=
  if difficulty ≤ 2/5 then Arm.easy
  else if difficulty ≤ 7/10 then Arm.medium
  else Arm.hard

/-- The per-arm decay step of `BanditService.updateModel`:
multiply by 0.995 then floor at 1. -/
def decayArm (p : ArmParameters) : ArmParameters :=
  ⟨max 1 (p.alpha * (199/200)), max 1 (p.beta * (199/200))⟩

/-- The per-arm posterior increment of `BanditService.updateModel`:
`alpha += 1` on success, `beta += 1` on failure. -/
def incrementArm (p : ArmParameters) (isCorrect : Bool) : ArmParameters :=
  if isCorrect then ⟨p.alpha + 1, p.beta⟩ else ⟨p.alpha, p.beta + 1⟩

/-- The arm-parameter effect of one `BanditService.updateModel` call:
increment the played arm, then decay-and-floor all three arms. -/
def updateArmParams (ps : ArmParams) (isCorrect : Bool) (difficulty : ℚ) : ArmParams :=
  let ps1 : ArmParams :=
    match getDifficultyArm difficulty with
    | Arm.easy => { ps with easy := incrementArm ps.easy isCorrect }
    | Arm.medium => { ps with medium := incrementArm ps.medium isCorrect }
    | Arm.hard => { ps with hard := incrementArm ps.hard isCorrect }
  ⟨decayArm ps1.easy, decayArm ps1.medium, decayArm ps1.hard⟩

/-- A persisted `bandit_models` row. -/
structure BanditModel where
  arm_parameters : ArmParams
  context_features : Option BanditContext
  total_interactions : ℕ
  last_updated : Option ℚ
  deriving DecidableEq

/-- `BanditService.updateModel` on the (possibly absent) stored model:
returns without change when no model exists, otherwise increments and decays
the arm parameters, stores the context, bumps `total_interactions` and stamps
`last_updated`. -/
def banditUpdateModel (m : Option BanditModel) (isCorrect : Bool)
    (difficulty : ℚ) (c : BanditContext) (now : ℚ) : Option BanditModel :=
  match m with
  | none => none
  | some mdl => some
      { arm_parameters := updateArmParams mdl.arm_parameters isCorrect difficulty
        context_features := some c
        total_interactions := mdl.total_interactions + 1
        last_updated := some now }

/-- The effect of one `AdaptiveService.processFeedback` call on the stored
mastery row: `processFeedback` first calls `AdaptiveService.updateModel`
(which runs `masteryService.updateMastery` once) and then calls
`masteryService.updateMastery` again directly, so the stored row receives two
sequential BKT updates with the same `isCorrect`, `difficulty`, `timeTaken`. -/
def processFeedbackMastery (row : MasteryRow) (isCorrect : Bool)
    (difficulty timeTaken now : ℚ) : MasteryRow :=
  updateMastery (updateMastery row isCorrect difficulty timeTaken now)
    isCorrect difficulty timeTaken now

/-- The effect of one `AdaptiveService.processFeedback` call on the stored
bandit model: exactly one `BanditService.updateModel` (via
`AdaptiveService.updateModel`). -/
def processFeedbackBandit (m : Option BanditModel) (isCorrect : Bool)
    (difficulty : ℚ) (c : BanditContext) (now : ℚ) : Option BanditModel :=
  banditUpdateModel m isCorrect difficulty c now

/-- The documented ranges of the mutable numeric mastery fields:
`masteryScore ∈ [0.01, 0.99]`, `learningRate ∈ [0.05, 0.3]`,
`confidenceInterval ∈ [0.05, 0.5]`, and a non-negative forgetting rate. -/
def MasteryState.InRange (s : MasteryState) : Prop :=
  1/100 ≤ s.mastery_score ∧ s.mastery_score ≤ 99/100
    ∧ 1/20 ≤ s.learning_rate ∧ s.learning_rate ≤ 3/10
    ∧ 1/20 ≤ s.confidence_interval ∧ s.confidence_interval ≤ 1/2
    ∧ 0 ≤ s.forgetting_rate

/-- One `update` call's inputs at the `MasteryState` level. -/
structure UpdateInput where
  isCorrect : Bool
  difficulty : ℚ
  timeTaken : ℚ
  elapsedMs : ℚ
  deriving DecidableEq

/-- Valid inputs per the spec: `difficulty ∈ [0,1]`, `timeTaken > 0`,
non-negative elapsed time. -/
def UpdateInput.Valid (i : UpdateInput) : Prop :=
  0 ≤ i.difficulty ∧ i.difficulty ≤ 1 ∧ 0 < i.timeTaken ∧ 0 ≤ i.elapsedMs

/-- One BKT update step, for folding over input sequences. -/
def stepBKT (s : MasteryState) (i : UpdateInput) : MasteryState :=
  applyBKTUpdate s i.isCorrect i.difficulty i.timeTaken i.elapsedMs

/-- One correct-answer update step with zero elapsed time, parameterised by
`(difficulty, timeTaken)`. -/
def correctStep (s : MasteryState) (x : ℚ × ℚ) : MasteryState :=
  applyBKTUpdate s true x.1 x.2 0

/-- One `updateMastery` call at the row level, for folding over sequences:
inputs are `(isCorrect, difficulty, timeTaken, now)`. -/
def stepRow (row : MasteryRow) (x : Bool × ℚ × ℚ × ℚ) : MasteryRow :=
  updateMastery row x.1 x.2.1 x.2.2.1 x.2.2.2

/-- The BanditModel invariant: `alpha ≥ 1` and `beta ≥ 1` for every arm. -/
def ArmParams.Invariant (p : ArmParams) : Prop :=
  1 ≤ p.easy.alpha ∧ 1 ≤ p.easy.beta
    ∧ 1 ≤ p.medium.alpha ∧ 1 ≤ p.medium.beta
    ∧ 1 ≤ p.hard.alpha ∧ 1 ≤ p.hard.beta

/-- One bandit update step at the arm-parameter level, for folding:
inputs are `(isCorrect, difficulty)`. -/
def banditStep (p : ArmParams) (x : Bool × ℚ) : ArmParams :=
  updateArmParams p x.1 x.2

/-- Per-arm lower bound on the contextual adjustment (worst case over all
contexts): `easy ≥ -1.5`, `medium ≥ -1`, `hard ≥ -3.3`. -/
def armAdjustmentLowerBound : Arm → ℚ
  | Arm.easy => -(3/2)
  | Arm.medium => -1
  | Arm.hard => -(33/10)

/-- Modelled from the spec: `clamp(x, lo, hi)` as used in §4.2. -/
def clamp (x lo hi : ℚ) : ℚ := max lo (min hi x)

/-- Modelled from the spec: the level thresholds written upwards,
Novice(<0.2)/Beginning(<0.4)/Developing(<0.6)/Proficient(<0.8)/Expert(≥0.8). -/
def specMasteryLevel (score : ℚ) : String :=
  if score < 1/5 then "Novice"
  else if score < 2/5 then "Beginning"
  else if score < 3/5 then "Developing"
  else if score < 4/5 then "Proficient"
  else "Expert"

/-- Modelled from the spec:
`predictedSuccessRate = min(0.95, masteryScore + (1-confidenceInterval)*0.1)`. -/
def specPredictedSuccessRate (s : MasteryState) : ℚ :=
  min (19/20) (s.mastery_score + (1 - s.confidence_interval) * (1/10))

/-- Modelled from the spec:
`recommendedDifficulty = clamp(masteryScore + 0.1 - confidenceInterval*0.2, 0.1, 0.9)`. -/
def specRecommendedDifficulty (s : MasteryState) : ℚ :=
  clamp (s.mastery_score + 1/10 - s.confidence_interval * (1/5)) (1/10) (9/10)

/-- A bandit model at the floor of the invariant (`alpha = beta = 1`
everywhere), used as a concrete input. -/
def floorArms : ArmParams := ⟨⟨1, 1⟩, ⟨1, 1⟩, ⟨1, 1⟩⟩

/-- A worst-case context for the `hard` arm: all five easy-biasing rules
fire at once. -/
def worstContext : BanditContext :=
  { topic_mastery := 1/5
    recent_accuracy := 2/5
    avg_time_per_question := 50
    total_attempts := 0
    time_of_day := 16
    engagement_level := 3/10
    streak_days := 0 }

/-! ## General lemmas about the 4-decimal rounding step -/

lemma jsRound4_le_const {x : ℚ} {n : ℤ} (h : x * 10000 ≤ (n : ℚ)) :
    jsRound4 x ≤ (n : ℚ) / 10000 := by
  unfold jsRound4
  have hf : (⌊x * 10000 + 1/2⌋ : ℤ) ≤ n := by
    rw [Int.floor_le_iff]
    linarith
  have hq : ((⌊x * 10000 + 1/2⌋ : ℤ) : ℚ) ≤ (n : ℚ) := by exact_mod_cast hf
  linarith

lemma const_le_jsRound4 {x : ℚ} {n : ℤ} (h : (n : ℚ) ≤ x * 10000) :
    (n : ℚ) / 10000 ≤ jsRound4 x := by
  unfold jsRound4
  have hf : n ≤ (⌊x * 10000 + 1/2⌋ : ℤ) := by
    rw [Int.le_floor]
    linarith
  have hq : ((n : ℤ) : ℚ) ≤ ((⌊x * 10000 + 1/2⌋ : ℤ) : ℚ) := by exact_mod_cast hf
  linarith

lemma jsRound4_le_add (x : ℚ) : jsRound4 x ≤ x + 1/20000 := by
  unfold jsRound4
  have := Int.floor_le (x * 10000 + 1/2)
  linarith

lemma sub_lt_jsRound4 (x : ℚ) : x - 1/20000 < jsRound4 x := by
  unfold jsRound4
  have := Int.sub_one_lt_floor (x * 10000 + 1/2)
  linarith

/-! ## Preservation of the documented mastery ranges by one BKT update -/

lemma applyBKTUpdate_inRange {s : MasteryState} (hs : s.InRange)
    (isCorrect : Bool) {d t e : ℚ} (_hd0 : 0 ≤ d) (_hd1 : d ≤ 1) (he : 0 ≤ e) :
    (applyBKTUpdate s isCorrect d t e).InRange := by
  obtain ⟨hm0, hm1, hl0, hl1, hc0, hc1, hf⟩ := hs
  have htbf : (0:ℚ) ≤ s.forgetting_rate * (e / 86400000) := by positivity
  unfold applyBKTUpdate MasteryState.InRange
  cases isCorrect
  · simp only [Bool.false_eq_true, if_false]
    refine ⟨?_, ?_, ?_, ?_, ?_, ?_, hf⟩
    · have h := const_le_jsRound4 (n := 100)
        (x := max (1/100) (max (1/100) (s.mastery_score - s.forgetting_rate * s.mastery_score * 2)
          - s.forgetting_rate * (e / 86400000)))
        (by
          have := le_max_left (1/100 : ℚ)
            (max (1/100) (s.mastery_score - s.forgetting_rate * s.mastery_score * 2)
              - s.forgetting_rate * (e / 86400000))
          push_cast
          linarith)
      push_cast at h
      linarith
    · have hloss : (0:ℚ) ≤ s.forgetting_rate * s.mastery_score * 2 := by positivity
      have hin : max (1/100) (s.mastery_score - s.forgetting_rate * s.mastery_score * 2)
          - s.forgetting_rate * (e / 86400000) ≤ 99/100 := by
        have : max (1/100 : ℚ) (s.mastery_score - s.forgetting_rate * s.mastery_score * 2)
            ≤ 99/100 := max_le (by norm_num) (by linarith)
        linarith
      have h := jsRound4_le_const (n := 9900)
        (x := max (1/100) (max (1/100) (s.mastery_score - s.forgetting_rate * s.mastery_score * 2)
          - s.forgetting_rate * (e / 86400000)))
        (by
          have : max (1/100 : ℚ) (max (1/100) (s.mastery_score - s.forgetting_rate * s.mastery_score * 2)
              - s.forgetting_rate * (e / 86400000)) ≤ 99/100 := max_le (by norm_num) hin
          push_cast
          linarith)
      push_cast at h
      linarith
    · have h := const_le_jsRound4 (n := 500)
        (x := min (3/10) (s.learning_rate * (51/50)))
        (by
          have : (1/20 : ℚ) ≤ min (3/10) (s.learning_rate * (51/50)) :=
            le_min (by norm_num) (by linarith)
          push_cast
          linarith)
      push_cast at h
      linarith
    · have h := jsRound4_le_const (n := 3000)
        (x := min (3/10) (s.learning_rate * (51/50)))
        (by
          have := min_le_left (3/10 : ℚ) (s.learning_rate * (51/50))
          push_cast
          linarith)
      push_cast at h
      linarith
    · have h := const_le_jsRound4 (n := 500)
        (x := min (1/2) (s.confidence_interval * (11/10)))
        (by
          have : (1/20 : ℚ) ≤ min (1/2) (s.confidence_interval * (11/10)) :=
            le_min (by norm_num) (by linarith)
          push_cast
          linarith)
      push_cast at h
      linarith
    · have h := jsRound4_le_const (n := 5000)
        (x := min (1/2) (s.confidence_interval * (11/10)))
        (by
          have := min_le_left (1/2 : ℚ) (s.confidence_interval * (11/10))
          push_cast
          linarith)
      push_cast at h
      linarith
  · simp only [if_true]
    refine ⟨?_, ?_, ?_, ?_, ?_, ?_, hf⟩
    · have h := const_le_jsRound4 (n := 100)
        (x := max (1/100) (min (99/100) (s.mastery_score
            + s.learning_rate * (1 + (d - 1/2) * (3/10)) * (max (1/2) (min (3/2) (30 / t)))
              * (1 - s.mastery_score))
          - s.forgetting_rate * (e / 86400000)))
        (by
          have := le_max_left (1/100 : ℚ)
            (min (99/100) (s.mastery_score
              + s.learning_rate * (1 + (d - 1/2) * (3/10)) * (max (1/2) (min (3/2) (30 / t)))
                * (1 - s.mastery_score))
            - s.forgetting_rate * (e / 86400000))
          push_cast
          linarith)
      push_cast at h
      linarith
    · have hin : min (99/100) (s.mastery_score
            + s.learning_rate * (1 + (d - 1/2) * (3/10)) * (max (1/2) (min (3/2) (30 / t)))
              * (1 - s.mastery_score))
          - s.forgetting_rate * (e / 86400000) ≤ 99/100 := by
        have := min_le_left (99/100 : ℚ) (s.mastery_score
          + s.learning_rate * (1 + (d - 1/2) * (3/10)) * (max (1/2) (min (3/2) (30 / t)))
            * (1 - s.mastery_score))
        linarith
      have h := jsRound4_le_const (n := 9900)
        (x := max (1/100) (min (99/100) (s.mastery_score
            + s.learning_rate * (1 + (d - 1/2) * (3/10)) * (max (1/2) (min (3/2) (30 / t)))
              * (1 - s.mastery_score))
          - s.forgetting_rate * (e / 86400000)))
        (by
          have : max (1/100 : ℚ) (min (99/100) (s.mastery_score
              + s.learning_rate * (1 + (d - 1/2) * (3/10)) * (max (1/2) (min (3/2) (30 / t)))
                * (1 - s.mastery_score))
            - s.forgetting_rate * (e / 86400000)) ≤ 99/100 := max_le (by norm_num) hin
          push_cast
          linarith)
      push_cast at h
      linarith
    · have h := const_le_jsRound4 (n := 500)
        (x := max (1/20) (s.learning_rate * (49/50)))
        (by
          have := le_max_left (1/20 : ℚ) (s.learning_rate * (49/50))
          push_cast
          linarith)
      push_cast at h
      linarith
    · have h := jsRound4_le_const (n := 3000)
        (x := max (1/20) (s.learning_rate * (49/50)))
        (by
          have : max (1/20 : ℚ) (s.learning_rate * (49/50)) ≤ 3/10 :=
            max_le (by norm_num) (by linarith)
          push_cast
          linarith)
      push_cast at h
      linarith
    · have h := const_le_jsRound4 (n := 500)
        (x := max (1/20) (s.confidence_interval * (19/20)))
        (by
          have := le_max_left (1/20 : ℚ) (s.confidence_interval * (19/20))
          push_cast
          linarith)
      push_cast at h
      linarith
    · have h := jsRound4_le_const (n := 5000)
        (x := max (1/20) (s.confidence_interval * (19/20)))
        (by
          have : max (1/20 : ℚ) (s.confidence_interval * (19/20)) ≤ 1/2 :=
            max_le (by norm_num) (by linarith)
          push_cast
          linarith)
      push_cast at h
      linarith

lemma stepBKT_inRange {s : MasteryState} {i : UpdateInput}
    (hs : s.InRange) (hi : i.Valid) : (stepBKT s i).InRange :=
  applyBKTUpdate_inRange hs i.isCorrect hi.1 hi.2.1 hi.2.2.2

lemma foldl_stepBKT_inRange {s : MasteryState} (hs : s.InRange)
    {l : List UpdateInput} (hl : ∀ i ∈ l, i.Valid) :
    (l.foldl stepBKT s).InRange := by
  induction l generalizing s with
  | nil => exact hs
  | cons i t ih =>
      exact ih (stepBKT_inRange hs (hl i (List.mem_cons_self _ _)))
        fun j hj => hl j (List.mem_cons_of_mem i hj)

lemma correctStep_inRange {s : MasteryState} (hs : s.InRange)
    {x : ℚ × ℚ} (hx : 0 ≤ x.1 ∧ x.1 ≤ 1) : (correctStep s x).InRange :=
  applyBKTUpdate_inRange hs true hx.1 hx.2 le_rfl

lemma foldl_correctStep_inRange {s : MasteryState} (hs : s.InRange)
    {l : List (ℚ × ℚ)} (hl : ∀ x ∈ l, 0 ≤ x.1 ∧ x.1 ≤ 1) :
    (l.foldl correctStep s).InRange := by
  induction l generalizing s with
  | nil => exact hs
  | cons x t ih =>
      exact ih (correctStep_inRange hs (hl x (List.mem_cons_self _ _)))
        fun y hy => hl y (List.mem_cons_of_mem x hy)

/-! ## Strict monotonicity of one correct-answer update -/

lemma correctStep_ci_strict {s : MasteryState} (hs : s.InRange)
    (hci : 1/20 < s.confidence_interval) (x : ℚ × ℚ) :
    (correctStep s x).confidence_interval < s.confidence_interval := by
  obtain ⟨hm0, hm1, hl0, hl1, hc0, hc1, hf⟩ := hs
  show jsRound4 (max (1/20) (s.confidence_interval * (19/20))) < s.confidence_interval
  rcases le_total (s.confidence_interval * (19/20)) (1/20) with h | h
  · rw [max_eq_left h]
    have hv : jsRound4 (1/20) = 1/20 := by norm_num [jsRound4]
    rw [hv]
    exact hci
  · rw [max_eq_right h]
    have h1 := jsRound4_le_add (s.confidence_interval * (19/20))
    linarith

lemma correctStep_m_strict {s : MasteryState} (hs : s.InRange)
    (hm : s.mastery_score < 99/100) {x : ℚ × ℚ} (hx0 : 0 ≤ x.1) (_hx1 : x.1 ≤ 1) :
    s.mastery_score < (correctStep s x).mastery_score := by
  obtain ⟨hm0, hm1, hl0, hl1, hc0, hc1, hf⟩ := hs
  have hz : s.forgetting_rate * ((0:ℚ) / 86400000) = 0 := by norm_num
  show s.mastery_score < jsRound4 (max (1/100)
    (min (99/100) (s.mastery_score
      + s.learning_rate * (1 + (x.1 - 1/2) * (3/10)) * (max (1/2) (min (3/2) (30 / x.2)))
        * (1 - s.mastery_score))
      - s.forgetting_rate * ((0:ℚ) / 86400000)))
  rw [hz, sub_zero]
  set g : ℚ := s.learning_rate * (1 + (x.1 - 1/2) * (3/10)) * (max (1/2) (min (3/2) (30 / x.2)))
    * (1 - s.mastery_score) with hg
  have htAdj0 : (1/2 : ℚ) ≤ max (1/2) (min (3/2) (30 / x.2)) := le_max_left _ _
  have hdAdj0 : (17/20 : ℚ) ≤ 1 + (x.1 - 1/2) * (3/10) := by linarith
  have hA : (17/800 : ℚ) ≤ s.learning_rate * (1 + (x.1 - 1/2) * (3/10))
      * (max (1/2) (min (3/2) (30 / x.2))) := by
    have h1 : (17/400 : ℚ) ≤ s.learning_rate * (1 + (x.1 - 1/2) * (3/10)) := by
      nlinarith
    nlinarith
  have hg0 : (17/80000 : ℚ) ≤ g := by
    rw [hg]
    nlinarith
  rcases le_total (s.mastery_score + g) (99/100) with h | h
  · rw [min_eq_right h]
    have hmax : max (1/100 : ℚ) (s.mastery_score + g) = s.mastery_score + g :=
      max_eq_right (by linarith)
    rw [hmax]
    have := sub_lt_jsRound4 (s.mastery_score + g)
    linarith
  · rw [min_eq_left h]
    have hmax : max (1/100 : ℚ) (99/100 : ℚ) = 99/100 := by norm_num
    rw [hmax]
    have hv : jsRound4 (99/100) = 99/100 := by norm_num [jsRound4]
    rw [hv]
    exact hm

/-! ## Bandit invariant preservation and adjustment bounds -/

lemma updateArmParams_invariant (p : ArmParams) (b : Bool) (d : ℚ) :
    (updateArmParams p b d).Invariant := by
  unfold updateArmParams ArmParams.Invariant decayArm
  cases getDifficultyArm d <;>
    exact ⟨le_max_left _ _, le_max_left _ _, le_max_left _ _,
      le_max_left _ _, le_max_left _ _, le_max_left _ _⟩

lemma adjMasteryRule_bounds (c : BanditContext) (a : Adjustments) :
    a.easy - 1 ≤ (adjMasteryRule c a).easy
    ∧ a.medium - 1/2 ≤ (adjMasteryRule c a).medium
    ∧ a.hard - 1 ≤ (adjMasteryRule c a).hard := by
  unfold adjMasteryRule
  split_ifs <;> refine ⟨?_, ?_, ?_⟩ <;> dsimp <;> linarith

lemma adjAccuracyRule_bounds (c : BanditContext) (a : Adjustments) :
    a.easy - 1/2 ≤ (adjAccuracyRule c a).easy
    ∧ a.medium - 3/10 ≤ (adjAccuracyRule c a).medium
    ∧ a.hard - 4/5 ≤ (adjAccuracyRule c a).hard := by
  unfold adjAccuracyRule
  split_ifs <;> refine ⟨?_, ?_, ?_⟩ <;> dsimp <;> linarith

lemma adjTimeRule_bounds (c : BanditContext) (a : Adjustments) :
    a.easy ≤ (adjTimeRule c a).easy
    ∧ a.medium ≤ (adjTimeRule c a).medium
    ∧ a.hard - 1/2 ≤ (adjTimeRule c a).hard := by
  unfold adjTimeRule
  split_ifs <;> refine ⟨?_, ?_, ?_⟩ <;> dsimp <;> linarith

lemma adjEngagementRule_bounds (c : BanditContext) (a : Adjustments) :
    a.easy ≤ (adjEngagementRule c a).easy
    ∧ a.medium - 1/5 ≤ (adjEngagementRule c a).medium
    ∧ a.hard - 7/10 ≤ (adjEngagementRule c a).hard := by
  unfold adjEngagementRule
  split_ifs <;> refine ⟨?_, ?_, ?_⟩ <;> dsimp <;> linarith

lemma adjTimeOfDayRule_bounds (c : BanditContext) (a : Adjustments) :
    a.easy ≤ (adjTimeOfDayRule c a).easy
    ∧ a.medium ≤ (adjTimeOfDayRule c a).medium
    ∧ a.hard - 3/10 ≤ (adjTimeOfDayRule c a).hard := by
  unfold adjTimeOfDayRule
  split_ifs <;> refine ⟨?_, ?_, ?_⟩ <;> dsimp <;> linarith

lemma adjustments_lowerBound (c : BanditContext) (arm : Arm) :
    armAdjustmentLowerBound arm ≤ (calculateContextualAdjustments c).get arm := by
  have h1 := adjMasteryRule_bounds c ⟨0, 0, 0⟩
  have h2 := adjAccuracyRule_bounds c (adjMasteryRule c ⟨0, 0, 0⟩)
  have h3 := adjTimeRule_bounds c (adjAccuracyRule c (adjMasteryRule c ⟨0, 0, 0⟩))
  have h4 := adjEngagementRule_bounds c
    (adjTimeRule c (adjAccuracyRule c (adjMasteryRule c ⟨0, 0, 0⟩)))
  have h5 := adjTimeOfDayRule_bounds c
    (adjEngagementRule c (adjTimeRule c (adjAccuracyRule c (adjMasteryRule c ⟨0, 0, 0⟩))))
  have hz : (⟨0, 0, 0⟩ : Adjustments).easy = 0 ∧ (⟨0, 0, 0⟩ : Adjustments).medium = 0
      ∧ (⟨0, 0, 0⟩ : Adjustments).hard = 0 := ⟨rfl, rfl, rfl⟩
  unfold calculateContextualAdjustments
  cases arm <;> simp only [Adjustments.get, armAdjustmentLowerBound] <;>
    [linarith [h1.1, h2.1, h3.1, h4.1, h5.1, hz.1];
     linarith [h1.2.1, h2.2.1, h3.2.1, h4.2.1, h5.2.1, hz.2.1];
     linarith [h1.2.2, h2.2.2, h3.2.2, h4.2.2, h5.2.2, hz.2.2]]

/-! ## The mastery-achieved timestamp -/

lemma updateMastery_achieved_preserved {row : MasteryRow} {ts : ℚ}
    (h : row.mastery_achieved_at = some ts) (b : Bool) (d t now : ℚ) :
    (updateMastery row b d t now).mastery_achieved_at = some ts := by
  unfold updateMastery
  simp [h]

lemma foldl_stepRow_achieved_preserved {row : MasteryRow} {ts : ℚ}
    (h : row.mastery_achieved_at = some ts) (l : List (Bool × ℚ × ℚ × ℚ)) :
    (l.foldl stepRow row).mastery_achieved_at = some ts := by
  induction l generalizing row with
  | nil => exact h
  | cons x t ih =>
      exact ih (updateMastery_achieved_preserved h x.1 x.2.1 x.2.2.1 x.2.2.2)

/-! ## Claim theorems -/

/-- Claim C1: the claim says a single `processFeedback` call applies the
mastery update exactly once; in the code, `processFeedback` calls
`AdaptiveService.updateModel` (which already runs `updateMastery`) and then
calls `updateMastery` again, so the stored row receives two BKT updates: at
the default row with a correct answer at difficulty 0.5 and 30 s, the stored
score becomes 0.3475 and the attempt counter 2, while one application gives
0.235. -/
theorem C1_processFeedback_double_mastery_update :
    processFeedbackMastery initialMasteryRow true (1/2) 30 0
      = updateMastery (updateMastery initialMasteryRow true (1/2) 30 0) true (1/2) 30 0
    ∧ (processFeedbackMastery initialMasteryRow true (1/2) 30 0).attempts_count = 2
    ∧ (processFeedbackMastery initialMasteryRow true (1/2) 30 0).state.mastery_score = 139/400
    ∧ (updateMastery initialMasteryRow true (1/2) 30 0).state.mastery_score = 47/200
    ∧ (139/400 : ℚ) ≠ 47/200 := by
  refine ⟨rfl, rfl, ?_, ?_, by norm_num⟩ <;>
    norm_num [processFeedbackMastery, updateMastery, applyBKTUpdate, jsRound4,
      getTimeSinceLastAttempt, initialMasteryRow, min_def, max_def]

/-- Claim C2, counterexample: a bandit model satisfying the invariant
(`alpha = beta = 1` on every arm) together with a context that fires all five
easy-biasing rules makes the first Beta-sampler argument of the `hard` arm
equal to `1 - 3.3 = -2.3 ≤ 0`, refuting the claim that the sampler arguments
are always strictly positive under the invariant. -/
theorem C2_nonpositive_alpha_argument :
    ArmParams.Invariant floorArms
    ∧ recommendAlphaArg floorArms worstContext Arm.hard = -(23/10)
    ∧ recommendAlphaArg floorArms worstContext Arm.hard ≤ 0 := by
  refine ⟨?_, ?_, ?_⟩
  · norm_num [ArmParams.Invariant, floorArms]
  · norm_num [recommendAlphaArg, calculateContextualAdjustments, adjMasteryRule,
      adjAccuracyRule, adjTimeRule, adjEngagementRule, adjTimeOfDayRule,
      ArmParams.get, Adjustments.get, floorArms, worstContext]
  · norm_num [recommendAlphaArg, calculateContextualAdjustments, adjMasteryRule,
      adjAccuracyRule, adjTimeRule, adjEngagementRule, adjTimeOfDayRule,
      ArmParams.get, Adjustments.get, floorArms, worstContext]

/-- Claim C2, amended: under the BanditModel invariant the `beta` argument
passed to the Beta sampler is always `≥ 1`, hence strictly positive, and the
`alpha` argument is bounded below by `alpha[arm]` plus the worst-case
contextual adjustment (`-1.5` / `-1` / `-3.3` for easy/medium/hard); it is
therefore strictly positive whenever `alpha[arm] > 3.3`, but the invariant
`alpha ≥ 1` alone does not make it positive. -/
theorem C2_sampler_arguments (p : ArmParams) (c : BanditContext) (arm : Arm)
    (hp : p.Invariant) :
    1 ≤ recommendBetaArg p c arm
    ∧ (p.get arm).alpha + armAdjustmentLowerBound arm ≤ recommendAlphaArg p c arm
    ∧ (33/10 < (p.get arm).alpha → 0 < recommendAlphaArg p c arm) := by
  obtain ⟨he1, he2, hm1, hm2, hh1, hh2⟩ := hp
  have hb := adjustments_lowerBound c arm
  have hlb : -(33/10) ≤ armAdjustmentLowerBound arm := by
    cases arm <;> norm_num [armAdjustmentLowerBound]
  refine ⟨?_, ?_, ?_⟩
  · cases arm <;> simp only [recommendBetaArg, ArmParams.get] <;> assumption
  · unfold recommendAlphaArg
    linarith
  · intro h
    unfold recommendAlphaArg
    linarith

/-- Witness for C2: a model with `alpha[hard] = 4 > 3.3` yields strictly
positive sampler arguments even in the worst context. -/
theorem C2_sampler_arguments_witness :
    1 ≤ recommendBetaArg ⟨⟨2, 1⟩, ⟨3/2, 3/2⟩, ⟨4, 2⟩⟩ worstContext Arm.hard
    ∧ 0 < recommendAlphaArg ⟨⟨2, 1⟩, ⟨3/2, 3/2⟩, ⟨4, 2⟩⟩ worstContext Arm.hard := by
  have h := C2_sampler_arguments ⟨⟨2, 1⟩, ⟨3/2, 3/2⟩, ⟨4, 2⟩⟩ worstContext Arm.hard
    (by norm_num [ArmParams.Invariant])
  exact ⟨h.1, h.2.2 (by norm_num [ArmParams.get])⟩

/-- Claim C3: starting from any in-range mastery state, after every prefix of
any finite sequence of valid updates (difficulty in `[0,1]`, positive time,
non-negative elapsed time) the state still satisfies
`masteryScore ∈ [0.01, 0.99]`, `learningRate ∈ [0.05, 0.3]` and
`confidenceInterval ∈ [0.05, 0.5]`, the 4-decimal rounding included. -/
theorem C3_clamping_invariant (s : MasteryState) (hs : s.InRange)
    (l : List UpdateInput) (hl : ∀ i ∈ l, i.Valid) (n : ℕ) :
    ((l.take n).foldl stepBKT s).InRange :=
  foldl_stepBKT_inRange hs fun i hi => hl i (List.take_subset n l hi)

/-- Witness for C3: the default state stays in range after a correct and an
incorrect update. -/
theorem C3_clamping_invariant_witness :
    ((([⟨true, 1/2, 30, 0⟩, ⟨false, 1, 10, 86400000⟩] : List UpdateInput).take 2).foldl
      stepBKT initialMasteryRow.state).InRange := by
  apply C3_clamping_invariant
  · norm_num [MasteryState.InRange, initialMasteryRow]
  · intro i hi
    fin_cases hi <;> norm_num [UpdateInput.Valid]

/-- Claim C4: if every arm starts with `alpha ≥ 1` and `beta ≥ 1`, then after
any finite sequence of bandit updates (any outcomes and difficulties) every
arm still satisfies `alpha ≥ 1` and `beta ≥ 1`: the increment-decay-floor
step preserves the invariant on every call. -/
theorem C4_decay_floor (p : ArmParams) (hp : p.Invariant) (l : List (Bool × ℚ)) :
    (l.foldl banditStep p).Invariant := by
  induction l generalizing p with
  | nil => exact hp
  | cons x t ih => exact ih (banditStep p x) (updateArmParams_invariant p x.1 x.2)

/-- Witness for C4: the all-ones model keeps the invariant after a success on
a medium difficulty and a failure on a hard difficulty. -/
theorem C4_decay_floor_witness :
    (([(true, 1/2), (false, 9/10)] : List (Bool × ℚ)).foldl banditStep floorArms).Invariant :=
  C4_decay_floor floorArms (by norm_num [ArmParams.Invariant, floorArms]) _

/-- Claim C5: once `mastery_achieved_at` is set it survives any further
sequence of updates unchanged (never cleared or overwritten), and from the
unset state one update sets it exactly when the post-update mastery score
reaches `0.8`. -/
theorem C5_masteryAchievedAt (row : MasteryRow) (l : List (Bool × ℚ × ℚ × ℚ))
    (ts : ℚ) (b : Bool) (d t now : ℚ) :
    (row.mastery_achieved_at = some ts →
      (l.foldl stepRow row).mastery_achieved_at = some ts)
    ∧ (row.mastery_achieved_at = none →
      (updateMastery row b d t now).mastery_achieved_at
        = (if (updateMastery row b d t now).state.mastery_score ≥ 4/5
           then some now else none)) := by
  constructor
  · intro h
    exact foldl_stepRow_achieved_preserved h l
  · intro h
    unfold updateMastery
    simp [h]

/-- Witness for C5: an already-set timestamp survives an update, and the
default row's first correct answer (score 0.235 < 0.8) leaves it unset. -/
theorem C5_masteryAchievedAt_witness :
    (([(true, 1/2, 30, 0)] : List (Bool × ℚ × ℚ × ℚ)).foldl stepRow
      { initialMasteryRow with mastery_achieved_at := some 5 }).mastery_achieved_at = some 5
    ∧ (updateMastery initialMasteryRow true (1/2) 30 7).mastery_achieved_at = none := by
  have h1 := (C5_masteryAchievedAt { initialMasteryRow with mastery_achieved_at := some 5 }
    [(true, 1/2, 30, 0)] 5 true (1/2) 30 7).1 rfl
  have h2 := (C5_masteryAchievedAt initialMasteryRow [] 0 true (1/2) 30 7).2 rfl
  refine ⟨h1, h2.trans ?_⟩
  norm_num [updateMastery, applyBKTUpdate, jsRound4, getTimeSinceLastAttempt,
    initialMasteryRow, min_def, max_def]

/-- Claim C6: from the default-initialized state, a single correct update at
difficulty 0.5 and 30 seconds yields mastery score exactly
`0.1 + 0.15*1*1*(1-0.1) = 0.235`; no time decay applies because
`last_attempt_at` is unset. -/
theorem C6_scenario1 (now : ℚ) :
    (updateMastery initialMasteryRow true (1/2) 30 now).state.mastery_score
      = 1/10 + (3/20) * 1 * 1 * (1 - 1/10)
    ∧ (1/10 + (3/20) * 1 * 1 * (1 - 1/10) : ℚ) = 47/200 := by
  constructor
  · norm_num [updateMastery, applyBKTUpdate, jsRound4, getTimeSinceLastAttempt,
      initialMasteryRow, min_def, max_def]
  · norm_num

/-- Claim C7: for every mastery state the insights computation agrees with
the spec formulas: `predictedSuccessRate = min(0.95, m + (1-ci)*0.1)`,
`recommendedDifficulty = clamp(m + 0.1 - ci*0.2, 0.1, 0.9)`, and the level
label follows the Novice/Beginning/Developing/Proficient/Expert thresholds. -/
theorem C7_insights_formulas (s : MasteryState) :
    predictNextQuestionSuccess s = specPredictedSuccessRate s
    ∧ recommendOptimalDifficulty s = specRecommendedDifficulty s
    ∧ getMasteryLevel s.mastery_score = specMasteryLevel s.mastery_score := by
  refine ⟨rfl, rfl, ?_⟩
  unfold getMasteryLevel specMasteryLevel
  split_ifs <;> first | rfl | linarith

/-- Claim C8: along any streak of correct answers with valid difficulties
and times and zero elapsed time, each step strictly decreases the confidence
interval while it is above the 0.05 floor and strictly increases the mastery
score while it is below the 0.99 ceiling, the 4-decimal rounding included. -/
theorem C8_success_streak_monotone (s : MasteryState) (hs : s.InRange)
    (l : List (ℚ × ℚ)) (hl : ∀ x ∈ l, 0 ≤ x.1 ∧ x.1 ≤ 1 ∧ 0 < x.2)
    (n : ℕ) (hn : n < l.length) :
    (1/20 < ((l.take n).foldl correctStep s).confidence_interval →
      ((l.take (n+1)).foldl correctStep s).confidence_interval
        < ((l.take n).foldl correctStep s).confidence_interval)
    ∧ (((l.take n).foldl correctStep s).mastery_score < 99/100 →
      ((l.take n).foldl correctStep s).mastery_score
        < ((l.take (n+1)).foldl correctStep s).mastery_score) := by
  have hstep : (l.take (n+1)).foldl correctStep s
      = correctStep ((l.take n).foldl correctStep s) l[n] := by
    rw [List.take_succ, List.getElem?_eq_getElem hn]
    rw [List.foldl_append]
    rfl
  have hin : ((l.take n).foldl correctStep s).InRange :=
    foldl_correctStep_inRange hs fun x hx =>
      ⟨(hl x (List.take_subset n l hx)).1, (hl x (List.take_subset n l hx)).2.1⟩
  have hx := hl l[n] (List.getElem_mem hn)
  constructor
  · intro hci
    rw [hstep]
    exact correctStep_ci_strict hin hci _
  · intro hm
    rw [hstep]
    exact correctStep_m_strict hin hm hx.1 hx.2.1

/-- Witness for C8: the first correct answer from the default state strictly
shrinks the confidence interval and strictly raises the mastery score. -/
theorem C8_success_streak_monotone_witness :
    ((([((1:ℚ)/2, (30:ℚ))].take 1).foldl correctStep initialMasteryRow.state).confidence_interval
      < (([((1:ℚ)/2, (30:ℚ))].take 0).foldl correctStep initialMasteryRow.state).confidence_interval)
    ∧ ((([((1:ℚ)/2, (30:ℚ))].take 0).foldl correctStep initialMasteryRow.state).mastery_score
      < (([((1:ℚ)/2, (30:ℚ))].take 1).foldl correctStep initialMasteryRow.state).mastery_score) := by
  have h := C8_success_streak_monotone initialMasteryRow.state
    (by norm_num [MasteryState.InRange, initialMasteryRow])
    [((1:ℚ)/2, (30:ℚ))]
    (by intro x hx; fin_cases hx; norm_num)
    0 (by norm_num)
  exact ⟨h.1 (by norm_num [initialMasteryRow]), h.2 (by norm_num [initialMasteryRow])⟩

/-- Claim C9: when no bandit model exists for the user, the update is a
no-op: it returns normally and leaves the (absent) persisted state
unchanged. -/
theorem C9_missing_model_noop (isCorrect : Bool) (difficulty : ℚ)
    (c : BanditContext) (now : ℚ) :
    banditUpdateModel none isCorrect difficulty c now = none := rfl

/-- Claim C10: with `attempts_count = 0` the insights return accuracy 0 and
average time 0 instead of dividing by zero, and the accuracy used by the
strengths/improvement rules divides by `max(1, attempts_count) = 1`. -/
theorem C10_division_guards (row : MasteryRow) (h : row.attempts_count = 0) :
    insightsAccuracy row = 0 ∧ insightsAvgTime row = 0
    ∧ ((max 1 row.attempts_count : ℕ) : ℚ) = 1
    ∧ guardedAccuracy row = (row.correct_answers : ℚ) := by
  refine ⟨?_, ?_, ?_, ?_⟩ <;>
    simp [insightsAccuracy, insightsAvgTime, guardedAccuracy, h]

/-- Witness for C10: the freshly initialized row has zero attempts and gets
the guarded values. -/
theorem C10_division_guards_witness :
    insightsAccuracy initialMasteryRow = 0 ∧ insightsAvgTime initialMasteryRow = 0
    ∧ ((max 1 initialMasteryRow.attempts_count : ℕ) : ℚ) = 1
    ∧ guardedAccuracy initialMasteryRow = (initialMasteryRow.correct_answers : ℚ) :=
  C10_division_guards initialMasteryRow rfl

end AlgoFest
